import Mathlib

/-!
Verification development for the MindEase chat and journaling application
(source file app.py). The Python code is shallowly embedded: Python strings
become Lean String (manipulated through their character lists), the external
generative-model client becomes an oracle of type String to Except String
String mapping a prompt to either a response text or a raised exception, and
the mutable session state becomes explicit state records passed through pure
step functions. Python str.lower and str.strip are modelled at ASCII
whitespace and ASCII case granularity, which is exact on the ASCII texts the
application manipulates.
-/

namespace MindEase

/-! ## Python string primitives, modelled on lists of characters -/

/-- The characters removed by Python str.strip with no argument. -/
def isPySpace (c : Char) : Bool :=
  c == ' ' || c == '\t' || c == '\n' || c == '\r' || c == '\x0b' || c == '\x0c'

/-- Model of Python str.startswith on character lists. -/
def startsWithL : List Char → List Char → Bool
  | [], _ => true
  | _ :: _, [] => false
  | a :: as, b :: bs => a == b && startsWithL as bs

/-- Model of the Python membership test needle in haystack on character
lists: some contiguous occurrence of the needle inside the haystack. -/
def containsL (needle : List Char) : List Char → Bool
  | [] => startsWithL needle []
  | c :: t => startsWithL needle (c :: t) || containsL needle t

/-- Model of Python s.split(sep, 1) restricted to a nonempty separator:
none when the separator does not occur, otherwise the parts before and
after its first occurrence. -/
def splitOnceL (sep : List Char) : List Char → Option (List Char × List Char)
  | [] => if startsWithL sep [] then some ([], List.drop sep.length []) else none
  | c :: t =>
    if startsWithL sep (c :: t) then some ([], List.drop sep.length (c :: t))
    else
      match splitOnceL sep t with
      | some (pre, post) => some (c :: pre, post)
      | none => none

/-- Fuel-indexed engine of Python str.replace: replaces non-overlapping
occurrences left to right. For a nonempty pattern, any fuel at least the
length of the scanned list computes the exact Python result, because every
step consumes at least one character. -/
def replaceFuel (old new : List Char) : Nat → List Char → List Char
  | _, [] => []
  | 0, s => s
  | fuel + 1, c :: t =>
    if startsWithL old (c :: t) then
      new ++ replaceFuel old new fuel (List.drop old.length (c :: t))
    else
      c :: replaceFuel old new fuel t

/-- Model of Python s.replace(old, new) for the nonempty patterns used by
the application. -/
def pyReplace (s old new : String) : String :=
  ⟨replaceFuel old.data new.data (s.data.length + 1) s.data⟩

/-- Model of Python s.strip() at ASCII whitespace granularity. -/
def stripL (s : List Char) : List Char :=
  ((s.dropWhile isPySpace).reverse.dropWhile isPySpace).reverse

/-- Model of Python s.strip() on strings. -/
def pyStrip (s : String) : String := ⟨stripL s.data⟩

/-- Model of Python s.lower() at ASCII granularity. -/
def pyLower (s : String) : String := ⟨s.data.map Char.toLower⟩

/-! ## Crisis keyword gate (app.py, CRISIS_KEYWORDS and check_crisis) -/

/-- The fixed crisis keyword list of app.py. -/
def CRISIS_KEYWORDS : List String :=
  ["suicide", "kill myself", "end my life", "self-harm", "harm myself"]

/-- app.py check_crisis: some keyword occurs as a substring of the
lowercased user text. -/
def check_crisis (text : String) : Bool :=
  CRISIS_KEYWORDS.any (fun keyword => containsL keyword.data (pyLower text).data)

/-! ## Chat response and emotion-tag parsing
(app.py, get_ai_response_and_emotion) -/

/-- The emotion prompt string built by get_ai_response_and_emotion around
the raw user message. -/
def emotion_prompt (prompt : String) : String :=
  "Analyze the following user message for a single dominant emotion (e.g., Sadness, Anxiety, Joy, Anger, Neutral): \x27" ++
    prompt ++
    "\x27. Then, respond as a compassionate AI companion, following your system instructions. Format your output strictly as: [Emotion: <Emotion>] <Your Supportive Response>"

/-- The fallback text returned by get_ai_response_and_emotion when the
external call raises. -/
def connection_error_response : String :=
  "I\x27m sorry, I\x27m having trouble connecting to the AI right now. Please check your API key and logs."

/-- app.py get_ai_response_and_emotion. The external chat object is the
oracle model, applied to the constructed emotion prompt; an Except.error
result stands for a raised exception, caught by the surrounding try block.
Returns the pair (ai_response, emotion). -/
def get_ai_response_and_emotion (model : String → Except String String)
    (prompt : String) : String × String :=
  match model (emotion_prompt prompt) with
  | .error _ => (connection_error_response, "Error")
  | .ok text =>
    let full_text := pyStrip text
    if startsWithL "[Emotion:".data full_text.data then
      match splitOnceL "] ".data full_text.data with
      | some (p0, p1) =>
        (⟨p1⟩, pyReplace (pyReplace ⟨p0⟩ "[Emotion: " "") "]" "")
      | none =>
        ("I hear you.", pyReplace (pyReplace full_text "[Emotion: " "") "]" "")
    else
      (full_text, "Neutral/Unknown")

/-- The emotion value asserted by the claim about an unterminated tag,
stated from the claim text rather than from the code, for comparison with
the code result: the text after the bracket-prefix tag, with all right
brackets removed. -/
def claimedEmotionAfterTag (t : String) : String :=
  pyReplace ⟨t.data.drop "[Emotion: ".data.length⟩ "]" ""

/-! ## Chat session state and one chat turn (app.py, render_chat_tab,
manage_chat_session_state, initialize_chat_session) -/

/-- One entry of st.session_state.messages. User messages carry no emotion
key; assistant messages carry one. -/
structure Message where
  role : String
  content : String
  emotion : Option String
  deriving DecidableEq

/-- The slice of st.session_state relevant to the chat tab: the message
history and whether the chat key, the external chat session object, is
currently present. -/
structure ChatState where
  messages : List Message
  chatPresent : Bool
  deriving DecidableEq

/-- app.py initialize_chat_session: stores a fresh chat object and resets
the message list only when it is absent or empty. -/
def initialize_chat_session (st : ChatState) : ChatState :=
  let st1 : ChatState := { st with chatPresent := true }
  if st1.messages.isEmpty then { st1 with messages := [] } else st1

/-- app.py manage_chat_session_state: create the chat object if the chat
key is missing from the session state. -/
def manage_chat_session_state (st : ChatState) : ChatState :=
  if st.chatPresent then st else initialize_chat_session st

/-- The static crisis message of render_chat_tab. -/
def crisis_response : String :=
  "🚨 **CRISIS ALERT: IMMEDIATE ACTION REQUIRED** 🚨\n\nI am **MindEase AI**, a companion, not a crisis resource. Your safety is paramount. Please, reach out for professional help **right now**.\n\nCall or Text **988** (Suicide & Crisis Lifeline)\n**Stay safe. You are not alone.**"

/-- Result of one chat turn: the resulting session state, together with
the control-flow fact of whether the external model was invoked on this
turn. -/
structure TurnResult where
  state : ChatState
  calledModel : Bool
  deriving DecidableEq

/-- One chat turn of app.py render_chat_tab after the user submits prompt:
append the user message; if the crisis gate fires, append the static
crisis message with emotion Crisis and rerun without touching the chat
object; otherwise obtain the response and emotion through
get_ai_response_and_emotion, append them, and delete the chat object
before the rerun. -/
def process_chat_turn (model : String → Except String String)
    (st : ChatState) (prompt : String) : TurnResult :=
  let st1 : ChatState :=
    { st with messages := st.messages ++ [⟨"user", prompt, none⟩] }
  if check_crisis prompt then
    { state :=
        { st1 with
          messages := st1.messages ++ [⟨"assistant", crisis_response, some "Crisis"⟩] },
      calledModel := false }
  else
    let res := get_ai_response_and_emotion model prompt
    { state :=
        { messages := st1.messages ++ [⟨"assistant", res.1, some res.2⟩],
          chatPresent := false },
      calledModel := true }

/-! ## JSON values and a model of Python json.loads
(used by app.py analyze_journal_entry) -/

mutual
/-- A parsed JSON value. Numbers keep their source lexeme, which is all
the application ever compares or displays. -/
inductive JVal where
  | jnull
  | jbool (b : Bool)
  | jnum (lex : String)
  | jstr (s : String)
  | jarr (xs : JArr)
  | jobj (fields : JObj)
  deriving DecidableEq
/-- A parsed JSON array. -/
inductive JArr where
  | nil
  | cons (v : JVal) (tl : JArr)
  deriving DecidableEq
/-- A parsed JSON object, as its member list in source order. -/
inductive JObj where
  | nil
  | cons (k : String) (v : JVal) (tl : JObj)
  deriving DecidableEq
end

/-- The whitespace characters of the JSON grammar. -/
def isJsonWs (c : Char) : Bool :=
  c == ' ' || c == '\t' || c == '\n' || c == '\r'

/-- Skip JSON whitespace. -/
def skipJsonWs (s : List Char) : List Char := s.dropWhile isJsonWs

/-- Value of one hexadecimal digit. -/
def hexVal (c : Char) : Option Nat :=
  if '0' ≤ c ∧ c ≤ '9' then some (c.toNat - 48)
  else if 'a' ≤ c ∧ c ≤ 'f' then some (c.toNat - 87)
  else if 'A' ≤ c ∧ c ≤ 'F' then some (c.toNat - 55)
  else none

/-- The single-character JSON string escapes. -/
def escChar (e : Char) : Option Char :=
  if e == '"' then some '"'
  else if e == '\\' then some '\\'
  else if e == '/' then some '/'
  else if e == 'b' then some '\x08'
  else if e == 'f' then some '\x0c'
  else if e == 'n' then some '\n'
  else if e == 'r' then some '\r'
  else if e == 't' then some '\t'
  else none

/-- Parse the body of a JSON string after its opening quote, up to and
including the closing quote. Unescaped control characters are rejected,
as in strict-mode json.loads. Every step consumes at least one character,
so fuel at least the input length is exact. -/
def parseStringBody : Nat → List Char → Option (List Char × List Char)
  | 0, _ => none
  | _ + 1, [] => none
  | fuel + 1, c :: t =>
    if c == '"' then some ([], t)
    else if c == '\\' then
      match t with
      | [] => none
      | e :: t2 =>
        if e == 'u' then
          match t2 with
          | h1 :: h2 :: h3 :: h4 :: t3 =>
            match hexVal h1, hexVal h2, hexVal h3, hexVal h4 with
            | some a, some b, some c2, some d =>
              match parseStringBody fuel t3 with
              | some (cs, r) =>
                some (Char.ofNat (((a * 16 + b) * 16 + c2) * 16 + d) :: cs, r)
              | none => none
            | _, _, _, _ => none
          | _ => none
        else
          match escChar e with
          | some ec =>
            match parseStringBody fuel t2 with
            | some (cs, r) => some (ec :: cs, r)
            | none => none
          | none => none
    else if c.toNat < 32 then none
    else
      match parseStringBody fuel t with
      | some (cs, r) => some (c :: cs, r)
      | none => none

/-- Integer part of a JSON number: a single zero, or a nonzero digit
followed by digits, matching the JSON grammar restriction on leading
zeros. -/
def parseIntPart : List Char → Option (List Char × List Char)
  | [] => none
  | c :: t =>
    if c == '0' then some ([c], t)
    else if c.isDigit then some (c :: t.takeWhile Char.isDigit, t.dropWhile Char.isDigit)
    else none

/-- Optional fractional part: a dot followed by at least one digit;
otherwise consumes nothing, leaving the dot for the caller to reject. -/
def parseFracPart (s : List Char) : List Char × List Char :=
  match s with
  | '.' :: t =>
    match t with
    | d :: _ =>
      if d.isDigit then ('.' :: t.takeWhile Char.isDigit, t.dropWhile Char.isDigit)
      else ([], s)
    | [] => ([], s)
  | _ => ([], s)

/-- Optional exponent part: e or E, an optional sign, and at least one
digit; otherwise consumes nothing. -/
def parseExpPart (s : List Char) : List Char × List Char :=
  match s with
  | e :: t =>
    if e == 'e' || e == 'E' then
      match t with
      | sgn :: t2 =>
        if sgn == '+' || sgn == '-' then
          match t2 with
          | d :: _ =>
            if d.isDigit then (e :: sgn :: t2.takeWhile Char.isDigit, t2.dropWhile Char.isDigit)
            else ([], s)
          | [] => ([], s)
        else if sgn.isDigit then (e :: t.takeWhile Char.isDigit, t.dropWhile Char.isDigit)
        else ([], s)
      | [] => ([], s)
    else ([], s)
  | [] => ([], s)

/-- Parse a JSON number starting at the given position, returning its
lexeme and the rest. -/
def parseNumberL (s : List Char) : Option (List Char × List Char) :=
  let (neg, s1) :=
    match s with
    | '-' :: t => (['-'], t)
    | _ => (([] : List Char), s)
  match parseIntPart s1 with
  | some (ip, r1) =>
    let (fp, r2) := parseFracPart r1
    let (ep, r3) := parseExpPart r2
    some (neg ++ ip ++ fp ++ ep, r3)
  | none => none

mutual
/-- Parse one JSON value after skipping leading whitespace. Models the
default json.loads scanner, including its acceptance of the NaN and
Infinity extensions. Fuel at least the input length is exact, since every
recursive call follows the consumption of at least one character. -/
def parseValue : Nat → List Char → Option (JVal × List Char)
  | 0, _ => none
  | fuel + 1, s =>
    match skipJsonWs s with
    | [] => none
    | c :: t =>
      if c.toNat == 123 then
        match skipJsonWs t with
        | d :: t2 =>
          if d.toNat == 125 then some (.jobj JObj.nil, t2)
          else
            match parseMembers fuel t with
            | some (fs, r) => some (.jobj fs, r)
            | none => none
        | [] => none
      else if c == '[' then
        match skipJsonWs t with
        | d :: t2 =>
          if d == ']' then some (.jarr JArr.nil, t2)
          else
            match parseElements fuel t with
            | some (xs, r) => some (.jarr xs, r)
            | none => none
        | [] => none
      else if c == '"' then
        match parseStringBody (t.length + 1) t with
        | some (cs, r) => some (.jstr ⟨cs⟩, r)
        | none => none
      else if startsWithL "true".data (c :: t) then some (.jbool true, (c :: t).drop 4)
      else if startsWithL "false".data (c :: t) then some (.jbool false, (c :: t).drop 5)
      else if startsWithL "null".data (c :: t) then some (.jnull, (c :: t).drop 4)
      else if startsWithL "NaN".data (c :: t) then some (.jnum "NaN", (c :: t).drop 3)
      else if startsWithL "Infinity".data (c :: t) then some (.jnum "Infinity", (c :: t).drop 8)
      else if startsWithL "-Infinity".data (c :: t) then some (.jnum "-Infinity", (c :: t).drop 9)
      else
        match parseNumberL (c :: t) with
        | some (lex, r) => some (.jnum ⟨lex⟩, r)
        | none => none

/-- Parse the members of a JSON object, starting at the first key and
consuming through the closing brace. -/
def parseMembers : Nat → List Char → Option (JObj × List Char)
  | 0, _ => none
  | fuel + 1, s =>
    match skipJsonWs s with
    | '"' :: t =>
      match parseStringBody (t.length + 1) t with
      | some (kcs, r1) =>
        match skipJsonWs r1 with
        | ':' :: r2 =>
          match parseValue fuel r2 with
          | some (v, r3) =>
            match skipJsonWs r3 with
            | c :: r4 =>
              if c.toNat == 125 then some (.cons ⟨kcs⟩ v .nil, r4)
              else if c == ',' then
                match parseMembers fuel r4 with
                | some (tl, r5) => some (.cons ⟨kcs⟩ v tl, r5)
                | none => none
              else none
            | [] => none
          | none => none
        | _ => none
      | none => none
    | _ => none

/-- Parse the elements of a JSON array, starting at the first element and
consuming through the closing bracket. -/
def parseElements : Nat → List Char → Option (JArr × List Char)
  | 0, _ => none
  | fuel + 1, s =>
    match parseValue fuel s with
    | some (v, r1) =>
      match skipJsonWs r1 with
      | c :: r2 =>
        if c == ']' then some (.cons v .nil, r2)
        else if c == ',' then
          match parseElements fuel r2 with
          | some (tl, r3) => some (.cons v tl, r3)
          | none => none
        else none
      | [] => none
    | none => none
end

/-- Model of Python json.loads: parse one JSON document and reject
trailing content other than whitespace. -/
def jsonLoads (s : String) : Option JVal :=
  match parseValue (s.data.length + 1) s.data with
  | some (v, rest) => if (skipJsonWs rest).isEmpty then some v else none
  | none => none

/-! ## Journal analysis and the journal save operation
(app.py, analyze_journal_entry and render_journal_tab) -/

/-- The analysis prompt string built by analyze_journal_entry around the
journal text. -/
def journal_analysis_prompt (text : String) : String :=
  "Analyze the following journal entry and provide a summary (max 3 sentences) and an overall emotional sentiment (e.g., \x27Calm\x27, \x27Stressed\x27, \x27Reflective\x27, \x27Motivated\x27, \x27Hopeful\x27). Format your response STRICTLY as a JSON object with keys \x27summary\x27 and \x27sentiment\x27. Entry to analyze: \x27" ++
    text ++ "\x27"

/-- The fence-stripping pipeline of analyze_journal_entry applied to the
raw response text before json.loads. -/
def journal_json_text (responseText : String) : String :=
  pyStrip (pyReplace (pyReplace (pyStrip responseText) "```json" "") "```" "")

/-- Lookup of a key in a parsed JSON object with Python dict semantics:
a later duplicate binding overrides an earlier one. -/
def JObj.getPy : JObj → String → Option JVal
  | .nil, _ => none
  | .cons k v tl, key =>
    match JObj.getPy tl key with
    | some r => some r
    | none => if k == key then some v else none

/-- Model of Python dict.get(key, default) on a parsed JSON object. -/
def pyDictGet (fields : JObj) (key : String) (dflt : JVal) : JVal :=
  (fields.getPy key).getD dflt

/-- app.py analyze_journal_entry: ask the oracle model for an analysis of
the entry, strip code fences, parse JSON, and read the summary and
sentiment keys. A raised exception, a parse failure, or a parsed document
that is not an object all fall into the except branch and yield the fixed
placeholders. Returns the pair (summary, sentiment). -/
def analyze_journal_entry (model : String → Except String String)
    (text : String) : JVal × JVal :=
  match model (journal_analysis_prompt text) with
  | .error _ => (.jstr "Could not generate summary.", .jstr "Analysis Error")
  | .ok rtext =>
    match jsonLoads (journal_json_text rtext) with
    | some (.jobj fields) =>
      (pyDictGet fields "summary" (.jstr "No summary available."),
        pyDictGet fields "sentiment" (.jstr "Unknown"))
    | _ => (.jstr "Could not generate summary.", .jstr "Analysis Error")

/-- One stored journal entry, as built by render_journal_tab. -/
structure JournalEntry where
  timestamp : String
  content : String
  summary : JVal
  sentiment : JVal
  deriving DecidableEq

/-- The insertion step of render_journal_tab: ensure a list exists for
the current date key, then append the new entry to it. The mapping is the
session dict in insertion order. -/
def addEntryToday (entries : List (String × List JournalEntry))
    (today : String) (e : JournalEntry) : List (String × List JournalEntry) :=
  let entries1 :=
    if entries.any (fun p => p.1 == today) then entries else entries ++ [(today, [])]
  entries1.map (fun p => if p.1 == today then (p.1, p.2 ++ [e]) else p)

/-- Result of pressing Save Entry: the updated mapping, whether the
analysis call ran, and whether the empty-entry warning was shown. -/
structure JournalSaveResult where
  journal_entries : List (String × List JournalEntry)
  calledAnalysis : Bool
  warned : Bool
  deriving DecidableEq

/-- The Save Entry branch of app.py render_journal_tab: a nonempty
stripped entry is analyzed and appended under the current date; an empty
or whitespace-only entry leaves the mapping untouched and only warns. -/
def save_journal_entry (model : String → Except String String)
    (entries : List (String × List JournalEntry))
    (today timestamp new_entry : String) : JournalSaveResult :=
  if pyStrip new_entry ≠ "" then
    let res := analyze_journal_entry model (pyStrip new_entry)
    { journal_entries :=
        addEntryToday entries today
          { timestamp := timestamp, content := pyStrip new_entry,
            summary := res.1, sentiment := res.2 },
      calledAnalysis := true, warned := false }
  else
    { journal_entries := entries, calledAnalysis := false, warned := true }

/-! ## Emotional insights aggregation (app.py, render_insights_tab) -/

/-- Truthiness of a JSON number by its lexeme: zero mantissas are falsy,
everything else, including the NaN and Infinity extensions, is truthy. -/
def jnumTruthy (lex : String) : Bool :=
  if lex == "NaN" || lex == "Infinity" || lex == "-Infinity" then true
  else
    (lex.data.takeWhile (fun c => !(c == 'e' || c == 'E'))).any
      (fun c => c.isDigit && !(c == '0'))

/-- Python truthiness of a parsed JSON value. -/
def pyTruthy : JVal → Bool
  | .jnull => false
  | .jbool b => b
  | .jnum lex => jnumTruthy lex
  | .jstr s => !(s == "")
  | .jarr .nil => false
  | .jarr (.cons _ _) => true
  | .jobj .nil => false
  | .jobj (.cons _ _ _) => true

/-- The chat emotion extraction of render_insights_tab: emotions of
assistant messages, excluding the non-informative labels. An assistant
message lacking the emotion key cannot be produced by the app and is
skipped. -/
def chatEmotions (messages : List Message) : List String :=
  messages.filterMap (fun m =>
    match m.emotion with
    | some e =>
      if m.role == "assistant" && !(["Neutral/Unknown", "Error", "Crisis"].contains e) then
        some e
      else none
    | none => none)

/-- The journal sentiment extraction of render_insights_tab: sentiments
of all stored entries across all dates, keeping only truthy values
outside the non-informative labels. -/
def journalSentiments (entries : List (String × List JournalEntry)) : List JVal :=
  ((entries.map Prod.snd).flatten).filterMap (fun e =>
    if pyTruthy e.sentiment &&
        !([JVal.jstr "Analysis Error", JVal.jstr "Unknown"].contains e.sentiment) then
      some e.sentiment
    else none)

/-- The distinct elements of a list in first-occurrence order, relative
to an accumulator of already-seen elements: the key order of a Python
Counter. -/
def firstOccsAux {α : Type} [BEq α] (seen : List α) : List α → List α
  | [] => []
  | x :: t => if seen.contains x then firstOccsAux seen t else x :: firstOccsAux (x :: seen) t

/-- Model of Counter(xs).items(): each distinct element in
first-occurrence order, paired with its number of occurrences. -/
def counterItems {α : Type} [BEq α] (xs : List α) : List (α × Nat) :=
  (firstOccsAux [] xs).map (fun l => (l, xs.count l))

/-- The descending-by-count comparison used to model
sort_values(by=Count, ascending=False). -/
def countGE {α : Type} (a b : α × Nat) : Prop := b.2 ≤ a.2

instance {α : Type} : DecidableRel (@countGE α) := fun a b => Nat.decLe b.2 a.2

instance {α : Type} : IsTotal (α × Nat) countGE :=
  ⟨fun a b => (Nat.le_total b.2 a.2).imp id id⟩

instance {α : Type} : IsTrans (α × Nat) countGE :=
  ⟨fun _ _ _ h1 h2 => Nat.le_trans h2 h1⟩

/-- The frequency table of render_insights_tab: Counter items sorted in
descending order of count. The pandas sort is modelled by insertion
sort; the claim fixes no order among equal counts. -/
def frequencyTable {α : Type} [BEq α] (xs : List α) : List (α × Nat) :=
  List.insertionSort countGE (counterItems xs)

/-- The chat emotion frequency table displayed by render_insights_tab. -/
def chatEmotionTable (messages : List Message) : List (String × Nat) :=
  frequencyTable (chatEmotions messages)

/-- The journal sentiment frequency table displayed by
render_insights_tab. -/
def journalSentimentTable (entries : List (String × List JournalEntry)) :
    List (JVal × Nat) :=
  frequencyTable (journalSentiments entries)

/-- The entries stored under one date key: the observation used to state
that a save appends under the current date. On the duplicate-free
mappings the session maintains, this is the list the date expander
shows. -/
def lookupDay (entries : List (String × List JournalEntry)) (d : String) :
    List JournalEntry :=
  ((entries.filter (fun p => p.1 == d)).map Prod.snd).flatten

/-! ## Helper lemmas about the string primitives -/

theorem startsWithL_append_self (p s : List Char) : startsWithL p (p ++ s) = true := by
  induction p with
  | nil => rfl
  | cons c t ih => simp [startsWithL, ih]

theorem containsL_append_of_all_ne (o : Char) (os s t : List Char)
    (h : ∀ c ∈ s, ¬(c = o)) :
    containsL (o :: os) (s ++ t) = containsL (o :: os) t := by
  induction s with
  | nil => rfl
  | cons c r ih =>
    have hc : (o == c) = false := by
      have := h c (by simp)
      simp [beq_eq_false_iff_ne]
      exact fun he => this he.symm
    have hr : ∀ c ∈ r, ¬(c = o) := fun c hcr => h c (by simp [hcr])
    simp [containsL, startsWithL, hc, ih hr]

theorem containsL_eq_false_of_all_ne (o : Char) (os s : List Char)
    (h : ∀ c ∈ s, ¬(c = o)) : containsL (o :: os) s = false := by
  have := containsL_append_of_all_ne o os s [] h
  simpa [containsL, startsWithL] using this

theorem splitOnceL_eq_none_of_not_contains (sep s : List Char)
    (h : containsL sep s = false) : splitOnceL sep s = none := by
  induction s with
  | nil =>
    simp only [containsL] at h
    simp [splitOnceL, h]
  | cons c t ih =>
    simp only [containsL, Bool.or_eq_false_iff] at h
    simp [splitOnceL, h.1, ih h.2]

theorem splitOnceL_append (pre post : List Char)
    (h : ∀ c ∈ pre, ¬(c = ']')) :
    splitOnceL [']', ' '] (pre ++ ']' :: ' ' :: post) = some (pre, post) := by
  induction pre with
  | nil => simp [splitOnceL, startsWithL]
  | cons c r ih =>
    have hc : (']' == c) = false := by
      have := h c (by simp)
      simp [beq_eq_false_iff_ne]
      exact fun he => this he.symm
    have hr : ∀ c ∈ r, ¬(c = ']') := fun c hcr => h c (by simp [hcr])
    simp [splitOnceL, startsWithL, hc, ih hr]

theorem replaceFuel_zero (old new s : List Char) : replaceFuel old new 0 s = s := by
  cases s <;> rfl

theorem replaceFuel_of_not_contains (old new : List Char) (fuel : Nat) (s : List Char)
    (h : containsL old s = false) : replaceFuel old new fuel s = s := by
  induction fuel generalizing s with
  | zero => exact replaceFuel_zero old new s
  | succ n ih =>
    cases s with
    | nil => rfl
    | cons c t =>
      simp only [containsL, Bool.or_eq_false_iff] at h
      simp [replaceFuel, h.1, ih t h.2]

theorem replaceFuel_cons_match (o : Char) (os new : List Char) (fuel : Nat) (s : List Char) :
    replaceFuel (o :: os) new (fuel + 1) ((o :: os) ++ s) =
      new ++ replaceFuel (o :: os) new fuel s := by
  have hs : startsWithL (o :: os) ((o :: os) ++ s) = true := startsWithL_append_self _ _
  have hd : List.drop (o :: os).length ((o :: os) ++ s) = s := List.drop_left _ _
  simp only [List.cons_append] at hs hd ⊢
  simp [replaceFuel, hs, hd]

theorem replaceFuel_append_of_all_ne (o : Char) (os new : List Char) (s t : List Char)
    (fuel : Nat) (hs : ∀ c ∈ s, ¬(c = o)) :
    replaceFuel (o :: os) new fuel (s ++ t) =
      s ++ replaceFuel (o :: os) new (fuel - s.length) t := by
  induction s generalizing fuel with
  | nil => simp
  | cons c r ih =>
    cases fuel with
    | zero =>
      rw [replaceFuel_zero, Nat.zero_sub, replaceFuel_zero]
    | succ n =>
      have hc : (o == c) = false := by
        have := hs c (by simp)
        simp [beq_eq_false_iff_ne]
        exact fun he => this he.symm
      have hr : ∀ c ∈ r, ¬(c = o) := fun c hcr => hs c (by simp [hcr])
      have hst : startsWithL (o :: os) (c :: (r ++ t)) = false := by
        simp [startsWithL, hc]
      have hstep : replaceFuel (o :: os) new (n + 1) (c :: (r ++ t)) =
          c :: replaceFuel (o :: os) new n (r ++ t) := by
        simp [replaceFuel, hst]
      simp only [List.cons_append, hstep, List.length_cons]
      rw [ih n hr]
      have harith : n - r.length = n + 1 - (r.length + 1) := by omega
      rw [harith]

theorem stripL_of_ends (c d : Char) (s : List Char)
    (hc : isPySpace c = false) (hd : isPySpace d = false) :
    stripL (c :: (s ++ [d])) = c :: (s ++ [d]) := by
  unfold stripL
  rw [List.dropWhile_cons]
  simp only [hc, Bool.false_eq_true, if_false]
  rw [show (c :: (s ++ [d])).reverse = d :: (s.reverse ++ [c]) from by simp]
  rw [List.dropWhile_cons]
  simp only [hd, Bool.false_eq_true, if_false]
  simp

theorem stripL_cons_ws (a : Char) (y : List Char) (ha : isPySpace a = true) :
    stripL (a :: y) = stripL y := by
  unfold stripL
  rw [List.dropWhile_cons]
  simp [ha]

theorem stripL_concat_ws (a : Char) (y : List Char) (ha : isPySpace a = true) :
    stripL (y ++ [a]) = stripL y := by
  unfold stripL
  rw [List.dropWhile_append]
  by_cases h : (y.dropWhile isPySpace).isEmpty
  · simp only [h, if_true]
    rw [List.dropWhile_cons]
    simp only [ha, if_true]
    simp [List.isEmpty_iff.mp h]
  · simp only [h, Bool.false_eq_true, if_false]
    rw [show (y.dropWhile isPySpace ++ [a]).reverse = a :: (y.dropWhile isPySpace).reverse from by simp]
    rw [List.dropWhile_cons]
    simp [ha]

theorem strip_fenced (body : String) :
    pyStrip ("```json\n" ++ body ++ "\n```") = "```json\n" ++ body ++ "\n```" := by
  unfold pyStrip
  have e1 : ("```json\n" ++ body ++ "\n```").data
      = '`' :: (("``json\n".data ++ body.data ++ "\n``".data) ++ ['`']) := by
    have a1 : "```json\n".data = '`' :: "``json\n".data := rfl
    have a2 : "\n```".data = "\n``".data ++ ['`'] := rfl
    simp [String.data_append, a1, a2, List.append_assoc]
  rw [e1, stripL_of_ends _ _ _ (by decide) (by decide)]
  exact (congrArg String.mk e1).symm

theorem journal_json_text_fenced (body : String)
    (hb : ∀ c ∈ body.data, ¬(c = '`'))
    (hs : pyStrip body = body) :
    journal_json_text ("```json\n" ++ body ++ "\n```") = body := by
  have hs2 : ∀ c ∈ '\n' :: (body.data ++ ['\n']), ¬(c = '`') := by
    intro c hc
    rcases List.mem_cons.mp hc with h | h
    · subst h; decide
    · rcases List.mem_append.mp h with h2 | h2
      · exact hb c h2
      · simp at h2; subst h2; decide
  have hrep1 : pyReplace ("```json\n" ++ body ++ "\n```") "```json" ""
      = ⟨('\n' :: (body.data ++ ['\n'])) ++ "```".data⟩ := by
    unfold pyReplace
    have e1 : ("```json\n" ++ body ++ "\n```").data
        = ('`' :: "``json".data) ++ (('\n' :: (body.data ++ ['\n'])) ++ "```".data) := by
      have a1 : "```json\n".data = ('`' :: "``json".data) ++ ['\n'] := rfl
      have a2 : "\n```".data = ['\n'] ++ "```".data := rfl
      simp [String.data_append, a1, a2, List.append_assoc]
    have e2 : "```json".data = '`' :: "``json".data := rfl
    rw [e2, e1]
    rw [show (('`' :: "``json".data) ++ (('\n' :: (body.data ++ ['\n'])) ++ "```".data)).length
        = (('\n' :: (body.data ++ ['\n'])) ++ "```".data).length + 7 from by
      simp [List.length_append]]
    rw [replaceFuel_cons_match]
    have hnc : containsL ('`' :: "``json".data)
        (('\n' :: (body.data ++ ['\n'])) ++ "```".data) = false := by
      rw [containsL_append_of_all_ne '`' "``json".data _ _ hs2]
      decide
    rw [replaceFuel_of_not_contains _ _ _ _ hnc]
    rfl
  have hrep2 : pyReplace ⟨('\n' :: (body.data ++ ['\n'])) ++ "```".data⟩ "```" ""
      = ⟨'\n' :: (body.data ++ ['\n'])⟩ := by
    unfold pyReplace
    have e3 : "```".data = '`' :: "``".data := rfl
    rw [e3]
    rw [replaceFuel_append_of_all_ne '`' "``".data [] ('\n' :: (body.data ++ ['\n'])) ('`' :: "``".data) _ hs2]
    have harith : ((('\n' :: (body.data ++ ['\n'])) ++ ('`' :: "``".data)).length + 1)
        - ('\n' :: (body.data ++ ['\n'])).length = 4 := by
      simp [List.length_append]
    rw [harith]
    rw [show replaceFuel ('`' :: "``".data) [] 4 ('`' :: "``".data) = [] from by decide]
    simp
  have hstrip2 : pyStrip ⟨'\n' :: (body.data ++ ['\n'])⟩ = body := by
    unfold pyStrip
    have : stripL ('\n' :: (body.data ++ ['\n'])) = body.data := by
      rw [stripL_cons_ws _ _ (by decide), stripL_concat_ws _ _ (by decide)]
      exact congrArg String.data hs
    rw [show (String.mk ('\n' :: (body.data ++ ['\n']))).data = '\n' :: (body.data ++ ['\n']) from rfl]
    rw [this]
  unfold journal_json_text
  rw [strip_fenced, hrep1, hrep2, hstrip2]

theorem lookupDay_cons (p : String × List JournalEntry)
    (rest : List (String × List JournalEntry)) (d : String) :
    lookupDay (p :: rest) d = (if p.1 == d then p.2 else []) ++ lookupDay rest d := by
  cases h : p.1 == d <;> simp [lookupDay, List.filter_cons, h]

theorem lookupDay_append (a b : List (String × List JournalEntry)) (d : String) :
    lookupDay (a ++ b) d = lookupDay a d ++ lookupDay b d := by
  simp [lookupDay, List.filter_append]

theorem lookupDay_map_update (today : String) (e : JournalEntry)
    (entries : List (String × List JournalEntry))
    (hk : (entries.map Prod.fst).Nodup)
    (hmem : entries.any (fun p => p.1 == today) = true) :
    lookupDay (entries.map (fun p => if p.1 == today then (p.1, p.2 ++ [e]) else p)) today =
      lookupDay entries today ++ [e] := by
  induction entries with
  | nil => simp at hmem
  | cons p rest ih =>
    have hk' : ((p :: rest).map Prod.fst).Nodup := hk
    rw [List.map_cons, List.nodup_cons] at hk'
    cases hp : (p.1 == today) with
    | true =>
      have htoday : p.1 = today := by simpa using hp
      have hrest_none : ∀ q ∈ rest, (q.1 == today) = false := by
        intro q hq
        cases hq2 : (q.1 == today) with
        | false => rfl
        | true =>
          exfalso
          have hqe : q.1 = today := by simpa using hq2
          exact hk'.1 (htoday ▸ hqe ▸ List.mem_map_of_mem Prod.fst hq)
      have hmap_id : rest.map (fun q => if q.1 == today then (q.1, q.2 ++ [e]) else q) = rest := by
        have : ∀ q ∈ rest, (fun q => if q.1 == today then (q.1, q.2 ++ [e]) else q) q = id q := by
          intro q hq
          simp [hrest_none q hq]
        rw [List.map_congr_left this, List.map_id]
      have hrest_lookup : lookupDay rest today = [] := by
        have hfil : rest.filter (fun p => p.1 == today) = [] := by
          rw [List.filter_eq_nil_iff]
          intro q hq
          simp [hrest_none q hq]
        simp [lookupDay, hfil]
      rw [List.map_cons]
      simp only [hp, if_true]
      rw [lookupDay_cons, lookupDay_cons, hmap_id, hrest_lookup]
      simp [hp]
    | false =>
      have hmem' : rest.any (fun p => p.1 == today) = true := by
        rw [List.any_cons, hp] at hmem
        simpa using hmem
      rw [List.map_cons]
      simp only [hp, Bool.false_eq_true, if_false]
      rw [lookupDay_cons, lookupDay_cons, ih hk'.2 hmem']
      simp [hp]

theorem lookupDay_addEntryToday (entries : List (String × List JournalEntry))
    (today : String) (e : JournalEntry)
    (hk : (entries.map Prod.fst).Nodup) :
    lookupDay (addEntryToday entries today e) today = lookupDay entries today ++ [e] := by
  unfold addEntryToday
  cases hmem : entries.any (fun p => p.1 == today) with
  | true =>
    simp only [if_true]
    exact lookupDay_map_update today e entries hk hmem
  | false =>
    simp only [Bool.false_eq_true, if_false]
    have hall : ∀ q ∈ entries, (q.1 == today) = false := by
      intro q hq
      cases hq2 : (q.1 == today) with
      | false => rfl
      | true =>
        exfalso
        have : entries.any (fun p => p.1 == today) = true :=
          List.any_eq_true.mpr ⟨q, hq, hq2⟩
        simp [this] at hmem
    have hmap_id : entries.map (fun q => if q.1 == today then (q.1, q.2 ++ [e]) else q) = entries := by
      have : ∀ q ∈ entries, (fun q => if q.1 == today then (q.1, q.2 ++ [e]) else q) q = id q := by
        intro q hq
        simp [hall q hq]
      rw [List.map_congr_left this, List.map_id]
    rw [List.map_append, hmap_id, lookupDay_append]
    simp [lookupDay]

/-! ## Claim theorems -/

/-- C1: a chat turn whose prompt contains a crisis keyword, case
insensitively, appends the static crisis message with emotion tag Crisis
after the user message, leaves the chat object in place, and never
invokes the external model: the result is the same for every model
oracle. -/
theorem crisis_input_shortcircuits_model
    (model : String → Except String String) (st : ChatState) (prompt : String)
    (h : check_crisis prompt = true) :
    process_chat_turn model st prompt =
      { state :=
          { messages := st.messages ++
              [⟨"user", prompt, none⟩, ⟨"assistant", crisis_response, some "Crisis"⟩],
            chatPresent := st.chatPresent },
        calledModel := false } := by
  simp [process_chat_turn, h]

theorem crisis_input_shortcircuits_model_witness :
    check_crisis "I want to End My Life" = true ∧
    process_chat_turn (fun _ => .error "network down") ⟨[], true⟩ "I want to End My Life" =
      { state :=
          { messages :=
              [⟨"user", "I want to End My Life", none⟩,
               ⟨"assistant", crisis_response, some "Crisis"⟩],
            chatPresent := true },
        calledModel := false } :=
  ⟨by decide,
    crisis_input_shortcircuits_model (fun _ => .error "network down") ⟨[], true⟩
      "I want to End My Life" (by decide)⟩

/-- C2: on a model output of the exact tagged form, with a tag word free
of brackets, parsing splits at the first occurrence of the
bracket-space separator and returns the tag word as the emotion and the
remaining text as the response. -/
theorem tagged_output_parses_emotion_and_response
    (model : String → Except String String) (prompt w rest : String)
    (hm : model (emotion_prompt prompt) = .ok ("[Emotion: " ++ w ++ "] " ++ rest))
    (hstrip : pyStrip ("[Emotion: " ++ w ++ "] " ++ rest) = "[Emotion: " ++ w ++ "] " ++ rest)
    (hw1 : ∀ c ∈ w.data, ¬(c = ']'))
    (hw2 : ∀ c ∈ w.data, ¬(c = '[')) :
    get_ai_response_and_emotion model prompt = (rest, w) := by
  have e1 : ("[Emotion: " ++ w ++ "] " ++ rest).data
      = ("[Emotion: ".data ++ w.data) ++ (']' :: ' ' :: rest.data) := by
    simp [String.data_append, List.append_assoc]
  have hA : ∀ c ∈ "[Emotion: ".data, ¬(c = ']') := by decide
  have hpre : ∀ c ∈ "[Emotion: ".data ++ w.data, ¬(c = ']') := by
    intro c hc
    rcases List.mem_append.mp hc with h | h
    · exact hA c h
    · exact hw1 c h
  have hstart : startsWithL "[Emotion:".data ("[Emotion: " ++ w ++ "] " ++ rest).data = true := by
    rw [e1]
    have e2 : ("[Emotion: ".data ++ w.data) ++ (']' :: ' ' :: rest.data)
        = "[Emotion:".data ++ ((' ' :: w.data) ++ (']' :: ' ' :: rest.data)) := by
      simp
    rw [e2]
    exact startsWithL_append_self _ _
  have hsplit : splitOnceL "] ".data ("[Emotion: " ++ w ++ "] " ++ rest).data
      = some ("[Emotion: ".data ++ w.data, rest.data) := by
    rw [e1]
    exact splitOnceL_append _ _ hpre
  have hrep1 : pyReplace ⟨"[Emotion: ".data ++ w.data⟩ "[Emotion: " "" = w := by
    unfold pyReplace
    have hlen : ("[Emotion: ".data ++ w.data).length = w.data.length + 10 := by
      simp [List.length_append]
    have e3 : "[Emotion: ".data = '[' :: "Emotion: ".data := rfl
    have hnc : containsL ('[' :: "Emotion: ".data) w.data = false :=
      containsL_eq_false_of_all_ne _ _ _ hw2
    rw [hlen]
    rw [show w.data.length + 10 + 1 = (w.data.length + 10) + 1 from rfl]
    rw [e3, replaceFuel_cons_match]
    rw [replaceFuel_of_not_contains _ _ _ _ hnc]
    rfl
  have hrep2 : pyReplace w "]" "" = w := by
    unfold pyReplace
    have hnc : containsL (']' :: []) w.data = false :=
      containsL_eq_false_of_all_ne _ _ _ hw1
    rw [show "]".data = ']' :: [] from rfl]
    rw [replaceFuel_of_not_contains _ _ _ _ hnc]
  unfold get_ai_response_and_emotion
  rw [hm]
  simp only [hstrip, hstart, hsplit, if_true]
  have e5 : (['[', 'E', 'm', 'o', 't', 'i', 'o', 'n', ':', ' '] : List Char) = "[Emotion: ".data :=
    rfl
  rw [e5, hrep1, hrep2]

theorem tagged_output_parses_emotion_and_response_witness :
    pyStrip ("[Emotion: " ++ "Joy" ++ "] " ++ "Great to hear!") =
      "[Emotion: " ++ "Joy" ++ "] " ++ "Great to hear!" ∧
    (∀ c ∈ "Joy".data, ¬(c = ']')) ∧ (∀ c ∈ "Joy".data, ¬(c = '[')) ∧
    get_ai_response_and_emotion (fun _ => .ok "[Emotion: Joy] Great to hear!") "hi" =
      ("Great to hear!", "Joy") :=
  ⟨by decide, by decide, by decide,
    tagged_output_parses_emotion_and_response (fun _ => .ok "[Emotion: Joy] Great to hear!")
      "hi" "Joy" "Great to hear!" rfl (by decide) (by decide) (by decide)⟩

/-- C10 counterexample: on an output that starts with the bracket prefix,
has no separator, and contains the tag text twice, the code removes every
occurrence of the tag text, so the emotion is not the text after the
leading tag as the claim states it. -/
theorem unterminated_tag_claim_false :
    startsWithL "[Emotion:".data (pyStrip "[Emotion: A [Emotion: B").data = true ∧
    containsL "] ".data (pyStrip "[Emotion: A [Emotion: B").data = false ∧
    (get_ai_response_and_emotion (fun _ => .ok "[Emotion: A [Emotion: B") "hello").1 =
      "I hear you." ∧
    (get_ai_response_and_emotion (fun _ => .ok "[Emotion: A [Emotion: B") "hello").2 ≠
      claimedEmotionAfterTag (pyStrip "[Emotion: A [Emotion: B") := by
  refine ⟨by decide, by decide, by decide, by decide⟩

/-- C10 (amended): for stripped model output that starts with the bracket
prefix but contains no separator, parsing returns the fixed response and,
as the emotion, the stripped text with every occurrence of the tag text
removed and then every right bracket removed. -/
theorem unterminated_tag_uses_replace_all
    (model : String → Except String String) (prompt s : String)
    (hm : model (emotion_prompt prompt) = .ok s)
    (hstart : startsWithL "[Emotion:".data (pyStrip s).data = true)
    (hnosep : containsL "] ".data (pyStrip s).data = false) :
    get_ai_response_and_emotion model prompt =
      ("I hear you.", pyReplace (pyReplace (pyStrip s) "[Emotion: " "") "]" "") := by
  have hs := splitOnceL_eq_none_of_not_contains _ _ hnosep
  simp [get_ai_response_and_emotion, hm, hstart, hs]

theorem unterminated_tag_uses_replace_all_witness :
    startsWithL "[Emotion:".data (pyStrip "[Emotion: Sad").data = true ∧
    containsL "] ".data (pyStrip "[Emotion: Sad").data = false ∧
    get_ai_response_and_emotion (fun _ => .ok "[Emotion: Sad") "x" =
      ("I hear you.", pyReplace (pyReplace (pyStrip "[Emotion: Sad") "[Emotion: " "") "]" "") :=
  ⟨by decide, by decide,
    unterminated_tag_uses_replace_all (fun _ => .ok "[Emotion: Sad") "x" "[Emotion: Sad"
      rfl (by decide) (by decide)⟩

/-- C3: when the stripped model output does not start with the bracket
prefix, parsing returns the Neutral/Unknown emotion and the full stripped
text as the response, with no failure possible. -/
theorem untagged_output_defaults_neutral_unknown
    (model : String → Except String String) (prompt s : String)
    (hm : model (emotion_prompt prompt) = .ok s)
    (h : startsWithL "[Emotion:".data (pyStrip s).data = false) :
    get_ai_response_and_emotion model prompt = (pyStrip s, "Neutral/Unknown") := by
  simp [get_ai_response_and_emotion, hm, h]

theorem untagged_output_defaults_neutral_unknown_witness :
    startsWithL "[Emotion:".data (pyStrip "  Hello there ").data = false ∧
    get_ai_response_and_emotion (fun _ => .ok "  Hello there ") "hi" =
      ("Hello there", "Neutral/Unknown") :=
  ⟨by decide,
    untagged_output_defaults_neutral_unknown (fun _ => .ok "  Hello there ") "hi"
      "  Hello there " rfl (by decide)⟩

/-- C7: when the external call raises during a non-crisis chat turn, the
turn still appends a user-visible fallback message with emotion tag
Error, the chat object is deleted, and the session manager run on the
next rerun recreates it. -/
theorem model_failure_caught_error_tag_chat_reset
    (model : String → Except String String) (st : ChatState) (prompt err : String)
    (hc : check_crisis prompt = false)
    (hm : model (emotion_prompt prompt) = .error err) :
    process_chat_turn model st prompt =
      { state :=
          { messages := st.messages ++
              [⟨"user", prompt, none⟩,
               ⟨"assistant", connection_error_response, some "Error"⟩],
            chatPresent := false },
        calledModel := true } ∧
    (manage_chat_session_state (process_chat_turn model st prompt).state).chatPresent = true := by
  have h1 : process_chat_turn model st prompt =
      { state :=
          { messages := st.messages ++
              [⟨"user", prompt, none⟩,
               ⟨"assistant", connection_error_response, some "Error"⟩],
            chatPresent := false },
        calledModel := true } := by
    simp [process_chat_turn, hc, get_ai_response_and_emotion, hm]
  refine ⟨h1, ?_⟩
  rw [h1]
  simp only [manage_chat_session_state, initialize_chat_session]
  split
  · simp_all
  · split <;> rfl

theorem model_failure_caught_error_tag_chat_reset_witness :
    check_crisis "hello" = false ∧
    process_chat_turn (fun _ => .error "quota exceeded") ⟨[], true⟩ "hello" =
      { state :=
          { messages :=
              [⟨"user", "hello", none⟩,
               ⟨"assistant", connection_error_response, some "Error"⟩],
            chatPresent := false },
        calledModel := true } ∧
    (manage_chat_session_state
        (process_chat_turn (fun _ => .error "quota exceeded") ⟨[], true⟩ "hello").state).chatPresent =
      true :=
  ⟨by decide,
    (model_failure_caught_error_tag_chat_reset (fun _ => .error "quota exceeded") ⟨[], true⟩
        "hello" "quota exceeded" (by decide) rfl).1,
    (model_failure_caught_error_tag_chat_reset (fun _ => .error "quota exceeded") ⟨[], true⟩
        "hello" "quota exceeded" (by decide) rfl).2⟩

/-- C8: within a session the messages list is append-only: a chat turn
extends it at the end, so the previous history is a prefix and the length
never decreases; the session manager and the chat initializer never
modify it. -/
theorem messages_append_only (model : String → Except String String)
    (st : ChatState) (prompt : String) :
    (∃ tail, (process_chat_turn model st prompt).state.messages = st.messages ++ tail) ∧
    st.messages.length ≤ (process_chat_turn model st prompt).state.messages.length ∧
    (manage_chat_session_state st).messages = st.messages ∧
    (initialize_chat_session st).messages = st.messages := by
  have hinit : (initialize_chat_session st).messages = st.messages := by
    simp only [initialize_chat_session]
    split
    · next h => simp_all [List.isEmpty_iff]
    · rfl
  have hmanage : (manage_chat_session_state st).messages = st.messages := by
    simp only [manage_chat_session_state]
    split
    · rfl
    · exact hinit
  have hturn : ∃ tail, (process_chat_turn model st prompt).state.messages = st.messages ++ tail := by
    cases hcc : check_crisis prompt
    · exact ⟨[⟨"user", prompt, none⟩,
        ⟨"assistant", (get_ai_response_and_emotion model prompt).1,
          some (get_ai_response_and_emotion model prompt).2⟩],
        by simp [process_chat_turn, hcc]⟩
    · exact ⟨[⟨"user", prompt, none⟩, ⟨"assistant", crisis_response, some "Crisis"⟩],
        by simp [process_chat_turn, hcc]⟩
  refine ⟨hturn, ?_, hmanage, hinit⟩
  obtain ⟨tail, htail⟩ := hturn
  simp [htail]

/-- C9: saving a journal entry whose text strips to the empty string
leaves the journal mapping untouched, runs no analysis call, and only
shows the warning. -/
theorem blank_entry_save_leaves_journal_unchanged
    (model : String → Except String String)
    (entries : List (String × List JournalEntry))
    (today timestamp new_entry : String)
    (h : pyStrip new_entry = "") :
    save_journal_entry model entries today timestamp new_entry =
      { journal_entries := entries, calledAnalysis := false, warned := true } := by
  simp [save_journal_entry, h]

theorem blank_entry_save_leaves_journal_unchanged_witness :
    pyStrip "  \n\t  " = "" ∧
    save_journal_entry (fun _ => .ok "\x7b\x7d") [("2026-10-11", [])]
        "2026-10-12" "2026-10-12 09:00:00" "  \n\t  " =
      { journal_entries := [("2026-10-11", [])], calledAnalysis := false, warned := true } :=
  ⟨by decide,
    blank_entry_save_leaves_journal_unchanged (fun _ => .ok "\x7b\x7d") [("2026-10-11", [])]
      "2026-10-12" "2026-10-12 09:00:00" "  \n\t  " (by decide)⟩

/-- C4: an analysis response that is a JSON object wrapped in a fenced
code block has its fence markers stripped before parsing, and the summary
and sentiment fields are read from the parsed object with their
defaults. -/
theorem fenced_json_analysis_extracts_fields
    (model : String → Except String String) (text body : String) (fields : JObj)
    (hm : model (journal_analysis_prompt text) = .ok ("```json\n" ++ body ++ "\n```"))
    (hb : ∀ c ∈ body.data, ¬(c = '`'))
    (hs : pyStrip body = body)
    (hp : jsonLoads body = some (.jobj fields)) :
    analyze_journal_entry model text =
      (pyDictGet fields "summary" (.jstr "No summary available."),
        pyDictGet fields "sentiment" (.jstr "Unknown")) := by
  simp only [analyze_journal_entry, hm]
  rw [journal_json_text_fenced body hb hs, hp]

theorem fenced_json_analysis_extracts_fields_witness :
    (∀ c ∈ "\x7b\"summary\": \"A calm day.\", \"sentiment\": \"Calm\"\x7d".data, ¬(c = '`')) ∧
    pyStrip "\x7b\"summary\": \"A calm day.\", \"sentiment\": \"Calm\"\x7d" =
      "\x7b\"summary\": \"A calm day.\", \"sentiment\": \"Calm\"\x7d" ∧
    jsonLoads "\x7b\"summary\": \"A calm day.\", \"sentiment\": \"Calm\"\x7d" =
      some (.jobj (.cons "summary" (.jstr "A calm day.")
        (.cons "sentiment" (.jstr "Calm") .nil))) ∧
    analyze_journal_entry
        (fun _ => .ok ("```json\n" ++ "\x7b\"summary\": \"A calm day.\", \"sentiment\": \"Calm\"\x7d" ++ "\n```"))
        "today was calm" =
      (JVal.jstr "A calm day.", JVal.jstr "Calm") :=
  ⟨by decide, by decide, by decide,
    (fenced_json_analysis_extracts_fields
        (fun _ => .ok ("```json\n" ++ "\x7b\"summary\": \"A calm day.\", \"sentiment\": \"Calm\"\x7d" ++ "\n```"))
        "today was calm" "\x7b\"summary\": \"A calm day.\", \"sentiment\": \"Calm\"\x7d"
        (.cons "summary" (.jstr "A calm day.") (.cons "sentiment" (.jstr "Calm") .nil))
        rfl (by decide) (by decide) (by decide)).trans (by decide)⟩

/-- C5: a nonempty journal entry whose analysis response fails to parse as
JSON is still saved: the mapping gains, at the end of the current date
list, an entry carrying the placeholder summary and the Analysis Error
sentiment, and no warning is shown. -/
theorem unparseable_analysis_saves_placeholders
    (model : String → Except String String)
    (entries : List (String × List JournalEntry))
    (today timestamp new_entry rtext : String)
    (hne : pyStrip new_entry ≠ "")
    (hm : model (journal_analysis_prompt (pyStrip new_entry)) = .ok rtext)
    (hp : jsonLoads (journal_json_text rtext) = none)
    (hk : (entries.map Prod.fst).Nodup) :
    save_journal_entry model entries today timestamp new_entry =
      { journal_entries := addEntryToday entries today
          { timestamp := timestamp, content := pyStrip new_entry,
            summary := .jstr "Could not generate summary.",
            sentiment := .jstr "Analysis Error" },
        calledAnalysis := true, warned := false } ∧
    lookupDay (save_journal_entry model entries today timestamp new_entry).journal_entries today =
      lookupDay entries today ++
        [{ timestamp := timestamp, content := pyStrip new_entry,
           summary := .jstr "Could not generate summary.",
           sentiment := .jstr "Analysis Error" }] := by
  have hanalysis : analyze_journal_entry model (pyStrip new_entry) =
      (.jstr "Could not generate summary.", .jstr "Analysis Error") := by
    simp [analyze_journal_entry, hm, hp]
  have h1 : save_journal_entry model entries today timestamp new_entry =
      { journal_entries := addEntryToday entries today
          { timestamp := timestamp, content := pyStrip new_entry,
            summary := .jstr "Could not generate summary.",
            sentiment := .jstr "Analysis Error" },
        calledAnalysis := true, warned := false } := by
    simp [save_journal_entry, hne, hanalysis]
  refine ⟨h1, ?_⟩
  rw [h1]
  exact lookupDay_addEntryToday entries today _ hk

theorem unparseable_analysis_saves_placeholders_witness :
    pyStrip "I feel fine" ≠ "" ∧
    jsonLoads (journal_json_text "not json") = none ∧
    (([("2026-10-10", [])] : List (String × List JournalEntry)).map Prod.fst).Nodup ∧
    save_journal_entry (fun _ => .ok "not json") [("2026-10-10", [])]
        "2026-10-12" "2026-10-12 10:00:00" "I feel fine" =
      { journal_entries := addEntryToday [("2026-10-10", [])] "2026-10-12"
          { timestamp := "2026-10-12 10:00:00", content := pyStrip "I feel fine",
            summary := .jstr "Could not generate summary.",
            sentiment := .jstr "Analysis Error" },
        calledAnalysis := true, warned := false } ∧
    lookupDay (save_journal_entry (fun _ => .ok "not json") [("2026-10-10", [])]
        "2026-10-12" "2026-10-12 10:00:00" "I feel fine").journal_entries "2026-10-12" =
      lookupDay [("2026-10-10", [])] "2026-10-12" ++
        [{ timestamp := "2026-10-12 10:00:00", content := pyStrip "I feel fine",
           summary := .jstr "Could not generate summary.",
           sentiment := .jstr "Analysis Error" }] :=
  ⟨by decide, by decide, by simp,
    (unparseable_analysis_saves_placeholders (fun _ => .ok "not json") [("2026-10-10", [])]
        "2026-10-12" "2026-10-12 10:00:00" "I feel fine" "not json"
        (by decide) rfl (by decide) (by simp)).1,
    (unparseable_analysis_saves_placeholders (fun _ => .ok "not json") [("2026-10-10", [])]
        "2026-10-12" "2026-10-12 10:00:00" "I feel fine" "not json"
        (by decide) rfl (by decide) (by simp)).2⟩

theorem mem_frequencyTable {α : Type} [BEq α] (p : α × Nat) (xs : List α) :
    p ∈ frequencyTable xs ↔ p ∈ counterItems xs :=
  (List.perm_insertionSort countGE (counterItems xs)).mem_iff

theorem frequencyTable_sorted {α : Type} [BEq α] (xs : List α) :
    List.Sorted countGE (frequencyTable xs) :=
  List.sorted_insertionSort countGE (counterItems xs)

theorem mem_counterItems_count {α : Type} [BEq α] {xs : List α} {p : α × Nat}
    (h : p ∈ counterItems xs) : p.2 = xs.count p.1 := by
  obtain ⟨l, _, rfl⟩ := List.mem_map.mp h
  rfl

theorem mem_firstOccsAux {α : Type} [BEq α] [LawfulBEq α] (x : α) (seen xs : List α) :
    x ∈ firstOccsAux seen xs ↔ x ∈ xs ∧ x ∉ seen := by
  induction xs generalizing seen with
  | nil => simp [firstOccsAux]
  | cons y t ih =>
    cases hy : seen.contains y with
    | true =>
      have hmem : y ∈ seen := by simpa using hy
      simp only [firstOccsAux, hy, if_true, ih, List.mem_cons]
      constructor
      · rintro ⟨hxt, hxs⟩
        exact ⟨Or.inr hxt, hxs⟩
      · rintro ⟨hor, hxs⟩
        rcases hor with rfl | hxt
        · exact absurd hmem hxs
        · exact ⟨hxt, hxs⟩
    | false =>
      have hmem : y ∉ seen := by simpa using hy
      simp only [firstOccsAux, hy, Bool.false_eq_true, if_false, List.mem_cons, ih]
      constructor
      · rintro (rfl | ⟨hxt, hxs⟩)
        · exact ⟨Or.inl rfl, hmem⟩
        · refine ⟨Or.inr hxt, ?_⟩
          intro hc
          exact hxs (Or.inr hc)
      · rintro ⟨rfl | hxt, hxs⟩
        · exact Or.inl rfl
        · by_cases hxy : x = y
          · exact Or.inl hxy
          · exact Or.inr ⟨hxt, fun hc => hc.elim hxy hxs⟩

theorem mem_iff_mem_counterItems {α : Type} [BEq α] [LawfulBEq α] (x : α) (xs : List α) :
    x ∈ xs ↔ ∃ n, (x, n) ∈ counterItems xs := by
  constructor
  · intro hx
    refine ⟨xs.count x, List.mem_map.mpr ⟨x, ?_, rfl⟩⟩
    exact (mem_firstOccsAux x [] xs).mpr ⟨hx, by simp⟩
  · rintro ⟨n, hn⟩
    obtain ⟨l, hl, heq⟩ := List.mem_map.mp hn
    have : l = x := congrArg Prod.fst heq
    subst this
    exact ((mem_firstOccsAux l [] xs).mp hl).1

theorem mem_chatEmotions_not_excluded (messages : List Message) (x : String)
    (h : x ∈ chatEmotions messages) :
    ¬(x ∈ ["Neutral/Unknown", "Error", "Crisis"]) := by
  obtain ⟨m, _, hm⟩ := List.mem_filterMap.mp h
  intro hx
  cases he : m.emotion with
  | none => simp [he] at hm
  | some e =>
    rw [he] at hm
    simp at hm
    obtain ⟨⟨_, h1, h2, h3⟩, rfl⟩ := hm
    simp at hx
    rcases hx with h | h | h
    · exact h1 h
    · exact h2 h
    · exact h3 h

theorem mem_journalSentiments_not_excluded (entries : List (String × List JournalEntry))
    (v : JVal) (h : v ∈ journalSentiments entries) :
    ¬(v ∈ [JVal.jstr "Analysis Error", JVal.jstr "Unknown"]) := by
  obtain ⟨e, _, he⟩ := List.mem_filterMap.mp h
  intro hv
  simp at he
  obtain ⟨⟨_, h1, h2⟩, rfl⟩ := he
  simp at hv
  rcases hv with hv | hv
  · exact h1 hv
  · exact h2 hv

/-- C6: for every session, the chat emotion table and the journal
sentiment table pair each distinct surviving label with its number of
occurrences in the extracted label list, contain exactly the labels that
survive the exclusion of the non-informative ones, and are sorted in
descending order of count; on the labels Joy, Joy, Sadness the table is
Joy 2 then Sadness 1. -/
theorem frequency_tables_count_exclude_sort (messages : List Message)
    (entries : List (String × List JournalEntry)) :
    (∀ p ∈ chatEmotionTable messages,
        p.2 = (chatEmotions messages).count p.1 ∧
        ¬(p.1 ∈ ["Neutral/Unknown", "Error", "Crisis"])) ∧
    (∀ x, x ∈ chatEmotions messages ↔ ∃ n, (x, n) ∈ chatEmotionTable messages) ∧
    List.Sorted countGE (chatEmotionTable messages) ∧
    (∀ p ∈ journalSentimentTable entries,
        p.2 = (journalSentiments entries).count p.1 ∧
        ¬(p.1 ∈ [JVal.jstr "Analysis Error", JVal.jstr "Unknown"])) ∧
    (∀ x, x ∈ journalSentiments entries ↔ ∃ n, (x, n) ∈ journalSentimentTable entries) ∧
    List.Sorted countGE (journalSentimentTable entries) ∧
    frequencyTable ["Joy", "Joy", "Sadness"] = [("Joy", 2), ("Sadness", 1)] := by
  refine ⟨?_, ?_, frequencyTable_sorted _, ?_, ?_, frequencyTable_sorted _, by decide⟩
  · intro p hp
    have hp' := (mem_frequencyTable p _).mp hp
    refine ⟨mem_counterItems_count hp', ?_⟩
    have hkey : p.1 ∈ chatEmotions messages :=
      (mem_iff_mem_counterItems p.1 _).mpr ⟨p.2, hp'⟩
    exact mem_chatEmotions_not_excluded _ _ hkey
  · intro x
    rw [mem_iff_mem_counterItems x (chatEmotions messages)]
    exact exists_congr fun n => (mem_frequencyTable (x, n) _).symm
  · intro p hp
    have hp' := (mem_frequencyTable p _).mp hp
    refine ⟨mem_counterItems_count hp', ?_⟩
    have hkey : p.1 ∈ journalSentiments entries :=
      (mem_iff_mem_counterItems p.1 _).mpr ⟨p.2, hp'⟩
    exact mem_journalSentiments_not_excluded _ _ hkey
  · intro x
    rw [mem_iff_mem_counterItems x (journalSentiments entries)]
    exact exists_congr fun n => (mem_frequencyTable (x, n) _).symm

end MindEase
